import Mathlib

/-!
Verification development for the order/approval and balance-ledger core of a
gaming transaction platform.

The repository ships the React frontend (under `src/frontend`) together with
design documents.  The backend core components (`ApprovalService`,
`BalanceLedger`, `CashoutCalculator`, `RuleResolver`) are referenced by the
documents but their Python sources are not part of this repository snapshot;
those components are modelled here from the specification, as indicated by
the doc comment of each such definition.  Frontend behaviour
(`PortalRoute.js`, `PortalWithdrawals.js`, `AdminWalletLoads.js`) is embedded
directly from the JavaScript sources.

Monetary amounts are modelled as rationals (`ℚ`); the JavaScript `||`
fall-through on possibly-absent numeric fields is modelled by `jsOr` over
`Option ℚ` (both `undefined`/`null` and `0` are falsy).
-/

deriving instance DecidableEq for Except

/-- JavaScript truthiness fall-through `x || d` for an optional numeric field:
`undefined`, `null` and `0` all fall through to the default. -/
def jsOr (o : Option ℚ) (d : ℚ) : ℚ :=
  match o with
  | none => d
  | some x => if x = 0 then d else x

/-- JavaScript `String.prototype.trim()`: strips leading and trailing
whitespace, embedded structurally over the character list. -/
def jsTrim (s : String) : String :=
  String.mk (((s.data.dropWhile Char.isWhitespace).reverse.dropWhile Char.isWhitespace).reverse)

namespace PortalRoute

/-- Possible render outcomes of the `PortalRoute` component
(`src/frontend/src/components/PortalRoute.js`). -/
inductive Render where
  | spinner : Render
  | redirect (target : String) : Render
  | children : Render
deriving DecidableEq

/-- Hard-coded demo flag from `PortalRoute.js` line 10: `const DEMO_MODE = true;`. -/
def DEMO_MODE : Bool := true

/-- Embedding of the `PortalRoute` component body
(`src/frontend/src/components/PortalRoute.js` lines 5-25): a loading spinner
when `loading && !DEMO_MODE`, a redirect to `/client-login` when
`!isPortalAuthenticated && !DEMO_MODE`, otherwise the children. -/
def render (isPortalAuthenticated loading : Bool) : Render :=
  if loading && !DEMO_MODE then .spinner
  else if !isPortalAuthenticated && !DEMO_MODE then .redirect "/client-login"
  else .children

end PortalRoute

namespace PortalWithdrawals

/-- One withdrawal record as consumed by `PortalWithdrawals.js`: a status
string plus possibly-absent `amount` and `payout_amount` numeric fields. -/
structure Withdrawal where
  status : String
  amount : Option ℚ
  payout_amount : Option ℚ
deriving DecidableEq

/-- Filter predicate of the `totalPending` computation
(`PortalWithdrawals.js` lines 71-72):
`!['approved', 'confirmed', 'rejected', 'cancelled'].includes(w.status)`. -/
def pendingFilter (w : Withdrawal) : Bool :=
  !((["approved", "confirmed", "rejected", "cancelled"] : List String).contains w.status)

/-- Filter predicate of the `totalCompleted` computation
(`PortalWithdrawals.js` line 75): `['approved', 'confirmed'].includes(w.status)`. -/
def completedFilter (w : Withdrawal) : Bool :=
  (["approved", "confirmed"] : List String).contains w.status

/-- Per-record contribution to the Pending total (`(w.amount || 0)`). -/
def pendingContrib (w : Withdrawal) : ℚ := jsOr w.amount 0

/-- Per-record contribution to the Completed total
(`(w.payout_amount || w.amount || 0)`). -/
def completedContrib (w : Withdrawal) : ℚ := jsOr w.payout_amount (jsOr w.amount 0)

/-- The `totalPending` summary (`PortalWithdrawals.js` lines 71-73):
filter then reduce with `+`. -/
def totalPending (ws : List Withdrawal) : ℚ :=
  (ws.filter pendingFilter).foldl (fun s w => s + pendingContrib w) 0

/-- The `totalCompleted` summary (`PortalWithdrawals.js` lines 74-76). -/
def totalCompleted (ws : List Withdrawal) : ℚ :=
  (ws.filter completedFilter).foldl (fun s w => s + completedContrib w) 0

end PortalWithdrawals

namespace AdminWalletLoads

/-- Shape of the JSON body sent by `AdminWalletLoads.js` to the wallet review
endpoint: `request_id`, `action`, `admin_id` and an optional `reason`. -/
structure WalletReviewPayload where
  request_id : String
  action : String
  admin_id : String
  reason : Option String
deriving DecidableEq

/-- Path of the endpoint targeted by both handlers of `AdminWalletLoads.js`
(lines 44 and 68): `axios.post(... + /api/v1/wallet/review, ...)`. -/
def walletReviewPath : String := "/api/v1/wallet/review"

/-- Embedding of `handleApprove` (`AdminWalletLoads.js` lines 39-58): posts
`action: APPROVE` with `request_id` and `admin_id: admin-web` to the wallet
review path.  The result is the (path, payload) pair of the request sent. -/
def handleApprove (requestId : String) : String × WalletReviewPayload :=
  (walletReviewPath,
    { request_id := requestId, action := "APPROVE", admin_id := "admin-web", reason := none })

/-- Embedding of `handleReject` (`AdminWalletLoads.js` lines 60-84): if the
reject reason is empty after trimming, no request is sent (`none`); otherwise
it posts `action: REJECT` with the reason to the wallet review path. -/
def handleReject (rejectReason : String) (requestId : String) :
    Option (String × WalletReviewPayload) :=
  if jsTrim rejectReason = "" then none
  else some (walletReviewPath,
    { request_id := requestId, action := "REJECT", admin_id := "admin-web",
      reason := some rejectReason })

end AdminWalletLoads

/-- Modelled from the spec: §6 input shape of the authoritative approval entry
point, `{order_id: string, action: "approve"|"reject", actor_id: string,
reason?: string}`.  The backend module realising it
(`/app/backend/api/v1/core/approval_service.py`) is not part of this
repository snapshot. -/
structure SpecApprovalInput where
  order_id : String
  action : String
  actor_id : String
  reason : Option String
deriving DecidableEq

/-- Modelled from the spec: the two legal values of the `action` field of the
approval entry point (§6). -/
def specActionValues : List String := ["approve", "reject"]

/-- Modelled from the repository documents: the admin route that submits
decisions through the centralized approval service is
`/api/v1/admin/approvals/ORDER_ID/action` (the legacy `/api/v1/wallet/review`
endpoint was removed). -/
def approvalServiceActionPath (orderId : String) : String :=
  "/api/v1/admin/approvals/" ++ orderId ++ "/action"

/-- Modelled from the spec: the three balance partitions of an account
(glossary: Bucket). -/
inductive Bucket where
  | cash : Bucket
  | bonus : Bucket
  | credits : Bucket
deriving DecidableEq

/-- Modelled from the spec: the tri-partite balance of an account
(cash, bonus, play credits). -/
structure Balances where
  cash : ℚ
  bonus : ℚ
  credits : ℚ
deriving DecidableEq

/-- All-zero balances. -/
def Balances.zero : Balances := ⟨0, 0, 0⟩

instance : Add Balances := ⟨fun x y => ⟨x.cash + y.cash, x.bonus + y.bonus, x.credits + y.credits⟩⟩

/-- Projection of one bucket of a balance triple. -/
def Balances.get (b : Balances) : Bucket → ℚ
  | .cash => b.cash
  | .bonus => b.bonus
  | .credits => b.credits

/-- Componentwise difference of two balance triples. -/
def Balances.sub (x y : Balances) : Balances :=
  ⟨x.cash - y.cash, x.bonus - y.bonus, x.credits - y.credits⟩

/-- Adds `amt` to one bucket of a balance triple. -/
def Balances.addBucket (b : Balances) (bk : Bucket) (amt : ℚ) : Balances :=
  match bk with
  | .cash => { b with cash := b.cash + amt }
  | .bonus => { b with bonus := b.bonus + amt }
  | .credits => { b with credits := b.credits + amt }

/-- Subtracts `amt` from one bucket of a balance triple. -/
def Balances.debit (b : Balances) (bk : Bucket) (amt : ℚ) : Balances :=
  b.addBucket bk (-amt)

/-- Modelled from the spec: the error taxonomy of §7.  `reasonRequired` is
the structured code returned for a reject without a non-empty reason (§4.5
step 4 requires the reason; §7 does not name the code). -/
inductive AppError where
  | notFound : AppError
  | illegalTransition : AppError
  | permissionDenied : AppError
  | insufficientBalance : AppError
  | configurationError : AppError
  | invalidAmount : AppError
  | reasonRequired : AppError
deriving DecidableEq

/-- Modelled from the spec: the append-only record of one balance mutation
(§3 LedgerEntry): signed deltas per bucket plus provenance fields. -/
structure LedgerEntry where
  accountId : String
  deltaCash : ℚ
  deltaBonus : ℚ
  deltaCredits : ℚ
  orderId : Option String
  reason : String
deriving DecidableEq

/-- The balance triple recorded as the delta of a ledger entry. -/
def LedgerEntry.delta (e : LedgerEntry) : Balances :=
  ⟨e.deltaCash, e.deltaBonus, e.deltaCredits⟩

/-- Modelled from the spec: the state owned by the BalanceLedger (§4.3):
current balances per account plus the append-only transaction log. -/
structure LedgerState where
  accounts : String → Balances
  entries : List LedgerEntry

/-- The empty ledger: no entries, every account at zero balances. -/
def LedgerState.empty : LedgerState :=
  { accounts := fun _ => Balances.zero, entries := [] }

namespace BalanceLedger

/-- Modelled from the spec: `credit(account_id, bucket, amount, order_id,
reason)` (§4.3) — increases one bucket and appends a LedgerEntry; fails with
`InvalidAmountError` if `amount ≤ 0`. -/
def credit (s : LedgerState) (accountId : String) (bk : Bucket) (amt : ℚ)
    (orderId : Option String) (reason : String) : Except AppError LedgerState :=
  if amt ≤ 0 then .error .invalidAmount
  else
    let b := s.accounts accountId
    let b' := b.addBucket bk amt
    let e : LedgerEntry :=
      { accountId := accountId
        deltaCash := b'.cash - b.cash
        deltaBonus := b'.bonus - b.bonus
        deltaCredits := b'.credits - b.credits
        orderId := orderId, reason := reason }
    .ok { accounts := fun k => if k = accountId then b' else s.accounts k
          entries := e :: s.entries }

/-- Sequentially debits the buckets of a consumption plan, failing (`none`)
at the first step that would drive its bucket negative (§4.3 `consume`). -/
def applyPlanChecked : Balances → List (Bucket × ℚ) → Option Balances
  | b, [] => some b
  | b, (bk, amt) :: rest =>
    let b' := b.debit bk amt
    if b'.get bk < 0 then none else applyPlanChecked b' rest

/-- Sequentially debits the buckets of a consumption plan with no negativity
check — the hypothetical partial application a non-atomic implementation
would leave behind. -/
def applyPlanUnchecked : Balances → List (Bucket × ℚ) → Balances
  | b, [] => b
  | b, (bk, amt) :: rest => applyPlanUnchecked (b.debit bk amt) rest

/-- Modelled from the spec: `consume(account_id, plan, order_id, reason)`
(§4.3) — atomically debits each bucket of the plan; fails with
`InsufficientBalanceError` if any bucket would go negative, in which case no
partial debit is applied; on success appends one LedgerEntry carrying the
combined negative deltas. -/
def consume (s : LedgerState) (accountId : String) (plan : List (Bucket × ℚ))
    (orderId : Option String) (reason : String) : Except AppError LedgerState :=
  let b := s.accounts accountId
  match applyPlanChecked b plan with
  | none => .error .insufficientBalance
  | some b' =>
    let e : LedgerEntry :=
      { accountId := accountId
        deltaCash := b'.cash - b.cash
        deltaBonus := b'.bonus - b.bonus
        deltaCredits := b'.credits - b.credits
        orderId := orderId, reason := reason }
    .ok { accounts := fun k => if k = accountId then b' else s.accounts k
          entries := e :: s.entries }

/-- Call semantics of `credit` as seen by the caller: on failure the ledger
state is unchanged and the error is surfaced. -/
def creditRun (s : LedgerState) (accountId : String) (bk : Bucket) (amt : ℚ)
    (orderId : Option String) (reason : String) : LedgerState × Option AppError :=
  match credit s accountId bk amt orderId reason with
  | .ok s' => (s', none)
  | .error e => (s, some e)

/-- Call semantics of `consume` as seen by the caller: on failure the ledger
state is unchanged and the error is surfaced. -/
def consumeRun (s : LedgerState) (accountId : String) (plan : List (Bucket × ℚ))
    (orderId : Option String) (reason : String) : LedgerState × Option AppError :=
  match consume s accountId plan orderId reason with
  | .ok s' => (s', none)
  | .error e => (s, some e)

end BalanceLedger

/-- One ledger operation, for reasoning about arbitrary operation sequences. -/
inductive LedgerOp where
  | credit (accountId : String) (bk : Bucket) (amt : ℚ)
      (orderId : Option String) (reason : String) : LedgerOp
  | consume (accountId : String) (plan : List (Bucket × ℚ))
      (orderId : Option String) (reason : String) : LedgerOp

/-- Applies one ledger operation under the call semantics (failed operations
leave the state unchanged). -/
def LedgerOp.apply (s : LedgerState) : LedgerOp → LedgerState
  | .credit a bk amt oid r => (BalanceLedger.creditRun s a bk amt oid r).1
  | .consume a plan oid r => (BalanceLedger.consumeRun s a plan oid r).1

/-- Runs a sequence of ledger operations from a starting state. -/
def runOps (s : LedgerState) : List LedgerOp → LedgerState
  | [] => s
  | op :: ops => runOps (op.apply s) ops

/-- Sum of the signed deltas of all ledger entries recorded for one account. -/
def sumDeltas : List LedgerEntry → String → Balances
  | [], _ => Balances.zero
  | e :: es, a =>
    let rest := sumDeltas es a
    if e.accountId = a then rest + e.delta else rest

/-- Modelled from the spec: the reconciliation invariant of §4.3/§8 — for
every account, the sum of signed deltas across all LedgerEntries equals the
stored balance of each bucket. -/
def reconciled (s : LedgerState) : Prop :=
  ∀ a, sumDeltas s.entries a = s.accounts a

/-- Modelled from the spec: the void reason emitted when the cashout cap is
exceeded (§4.2 step 4). -/
inductive VoidReason where
  | EXCEEDS_MAX_CASHOUT : VoidReason
deriving DecidableEq

/-- Modelled from the spec: the result of the cashout computation (§4.2):
payout, void and an optional void reason. -/
structure CashoutResult where
  payout : ℚ
  void : ℚ
  voidReason : Option VoidReason
deriving DecidableEq

namespace CashoutCalculator

/-- Modelled from the spec: the pure cashout computation (§4.2).
`total_balance = cash + bonus + credits`; `max_cashout = basis * multiplier`;
`payout = min(total_balance, max_cashout)`; `void = total_balance - payout`
with reason `EXCEEDS_MAX_CASHOUT` iff `void > 0`.  An absent or zero
multiplier is a `ConfigurationError`. -/
def compute (b : Balances) (basis : ℚ) (multiplier : Option ℚ) :
    Except AppError CashoutResult :=
  match multiplier with
  | none => .error .configurationError
  | some m =>
    if m = 0 then .error .configurationError
    else
      let total := b.cash + b.bonus + b.credits
      let maxCashout := basis * m
      let payout := min total maxCashout
      let void := total - payout
      .ok { payout := payout, void := void
            voidReason := if 0 < void then some .EXCEEDS_MAX_CASHOUT else none }

/-- Modelled from the spec: the reporting consumption order of §4.2 step 5 —
the payout is drawn from CASH first, then PLAY_CREDITS, then BONUS. -/
def consumptionPlan (b : Balances) (payout : ℚ) : List (Bucket × ℚ) :=
  let fromCash := min payout b.cash
  let fromCredits := min (payout - fromCash) b.credits
  let fromBonus := payout - fromCash - fromCredits
  [(.cash, fromCash), (.credits, fromCredits), (.bonus, fromBonus)]

end CashoutCalculator

/-- Modelled from the spec: one rule row (§3 Rule) — every field optional at
the CLIENT and GAME scopes; the GLOBAL row must be fully populated. -/
structure Rule where
  minDeposit : Option ℚ
  maxDeposit : Option ℚ
  minWithdrawal : Option ℚ
  maxWithdrawal : Option ℚ
  depositBonusPct : Option ℚ
  minCashoutMultiplier : Option ℚ
  maxCashoutMultiplier : Option ℚ
  depositBlockBalance : Option ℚ
deriving DecidableEq

/-- Rule row with no field present (a missing CLIENT or GAME row behaves as
all fields absent). -/
def Rule.empty : Rule := ⟨none, none, none, none, none, none, none, none⟩

/-- Modelled from the spec: a fully-resolved effective configuration
(glossary: Effective rule). -/
structure EffectiveRule where
  minDeposit : ℚ
  maxDeposit : ℚ
  minWithdrawal : ℚ
  maxWithdrawal : ℚ
  depositBonusPct : ℚ
  minCashoutMultiplier : ℚ
  maxCashoutMultiplier : ℚ
  depositBlockBalance : ℚ
deriving DecidableEq

namespace RuleResolver

/-- Modelled from the spec: per-field resolution (§4.1) — CLIENT over GAME
over GLOBAL, each missing value falling through to the next level; a GLOBAL
field that is itself absent is a `ConfigurationError`. -/
def resolveField (c g gl : Option ℚ) : Except AppError ℚ :=
  match gl with
  | none => .error .configurationError
  | some v => .ok (c.getD (g.getD v))

/-- Modelled from the spec: `resolve` (§4.1) — merges the CLIENT, GAME and
GLOBAL rule rows field by field under the precedence CLIENT > GAME > GLOBAL. -/
def resolve (client game : Option Rule) (glob : Rule) : Except AppError EffectiveRule := do
  let c := client.getD Rule.empty
  let g := game.getD Rule.empty
  let minDep ← resolveField c.minDeposit g.minDeposit glob.minDeposit
  let maxDep ← resolveField c.maxDeposit g.maxDeposit glob.maxDeposit
  let minW ← resolveField c.minWithdrawal g.minWithdrawal glob.minWithdrawal
  let maxW ← resolveField c.maxWithdrawal g.maxWithdrawal glob.maxWithdrawal
  let pct ← resolveField c.depositBonusPct g.depositBonusPct glob.depositBonusPct
  let minM ← resolveField c.minCashoutMultiplier g.minCashoutMultiplier glob.minCashoutMultiplier
  let maxM ← resolveField c.maxCashoutMultiplier g.maxCashoutMultiplier glob.maxCashoutMultiplier
  let blk ← resolveField c.depositBlockBalance g.depositBlockBalance glob.depositBlockBalance
  return { minDeposit := minDep, maxDeposit := maxDep, minWithdrawal := minW
           maxWithdrawal := maxW, depositBonusPct := pct, minCashoutMultiplier := minM
           maxCashoutMultiplier := maxM, depositBlockBalance := blk }

end RuleResolver

/-- Modelled from the spec: the order lifecycle states (§4.4). -/
inductive OrderStatus where
  | initiated : OrderStatus
  | awaiting_payment_proof : OrderStatus
  | pending_review : OrderStatus
  | approved : OrderStatus
  | rejected : OrderStatus
  | cancelled : OrderStatus
deriving DecidableEq

/-- Modelled from the spec: terminal states are `approved`, `rejected` and
`cancelled` (§4.4). -/
def OrderStatus.isTerminal : OrderStatus → Bool
  | .approved => true
  | .rejected => true
  | .cancelled => true
  | _ => false

/-- Modelled from the spec: the order kinds (§3 Order). -/
inductive OrderType where
  | deposit : OrderType
  | withdrawal : OrderType
  | game_load : OrderType
deriving DecidableEq

/-- Modelled from the spec: the output of the approval entry point (§6):
final status plus optional payout figures. -/
structure ApprovalResult where
  status : OrderStatus
  payoutAmount : Option ℚ
  voidAmount : Option ℚ
  voidReason : Option VoidReason
deriving DecidableEq

/-- Modelled from the spec: one order (§3), restricted to the fields the
approval protocol reads and writes.  `recordedResult` carries the previously
committed `ApprovalResult` used for idempotent replay. -/
structure Order where
  orderId : String
  userId : String
  orderType : OrderType
  amount : ℚ
  status : OrderStatus
  payoutAmount : Option ℚ
  voidAmount : Option ℚ
  voidReason : Option VoidReason
  recordedResult : Option ApprovalResult
deriving DecidableEq

/-- Modelled from the spec: one recorded admin/bot decision (§3
ApprovalAction). -/
structure ApprovalAction where
  orderId : String
  action : String
  actorId : String
  reason : String
deriving DecidableEq

/-- The two decision verbs of the approval entry point. -/
inductive DecisionAction where
  | approve : DecisionAction
  | reject : DecisionAction
deriving DecidableEq

/-- String form of a decision verb as recorded in an ApprovalAction. -/
def DecisionAction.name : DecisionAction → String
  | .approve => "approve"
  | .reject => "reject"

/-- Modelled from the spec: the state visible to the ApprovalService — the
order store, the balance ledger, the log of recorded approval actions, plus
the read-only environment it consults: the effective rule per user (§4.5
step 5 re-resolves rules at approval time), the `total_deposited_basis`
configuration input per user (§4.2, §9), and the actor permission policy
(§4.5 step 3: an actor is authorized for a given order amount or not). -/
structure SvcState where
  orders : String → Option Order
  ledger : LedgerState
  actions : List ApprovalAction
  rules : String → EffectiveRule
  basisOf : String → ℚ
  policy : String → ℚ → Bool

namespace ApprovalService

/-- Commits a decision (§4.5 step 7): writes the terminal status, the payout
figures and the recorded result onto the order, installs the new ledger
state, and records the ApprovalAction — all in one state change. -/
def commit (s : SvcState) (orderId : String) (o : Order) (r : ApprovalResult)
    (newLedger : LedgerState) (act : ApprovalAction) : ApprovalResult × SvcState :=
  (r,
    { s with
      orders := fun k =>
        if k = orderId then
          some { o with
                 status := r.status,
                 payoutAmount := r.payoutAmount,
                 voidAmount := r.voidAmount,
                 voidReason := r.voidReason,
                 recordedResult := some r }
        else s.orders k
      ledger := newLedger
      actions := act :: s.actions })

/-- Modelled from the spec: steps 4-6 of the approval protocol (§4.5) for an
order already found, non-terminal and permission-checked.

On `reject`: a non-empty (trimmed) reason is required; the order moves to
`rejected` and no LedgerEntry is written (reservation semantics belong to
the intake path).  On `approve` of a deposit: bonus = amount ×
`deposit_bonus_pct` of the rule re-resolved at approval time; cash is
credited with the amount and, when positive, bonus with the bonus.  On
`approve` of a withdrawal: the cashout is recomputed from current balances
and the payout is consumed under the CASH → PLAY_CREDITS → BONUS order.  The
spec leaves `game_load` approval side effects to the game-operations
collaborators, so it commits the status transition only. -/
def applyDecision (s : SvcState) (orderId : String) (o : Order)
    (action : DecisionAction) (actorId reason : String) :
    Except AppError (ApprovalResult × SvcState) :=
  let act : ApprovalAction :=
    { orderId := orderId, action := action.name, actorId := actorId, reason := reason }
  match action with
  | .reject =>
    if jsTrim reason = "" then .error .reasonRequired
    else
      .ok (commit s orderId o
        { status := .rejected, payoutAmount := none, voidAmount := none, voidReason := none }
        s.ledger act)
  | .approve =>
    match o.orderType with
    | .deposit => do
      let rule := s.rules o.userId
      let bonus := o.amount * rule.depositBonusPct
      let l1 ← BalanceLedger.credit s.ledger o.userId .cash o.amount (some orderId)
        "deposit approved"
      let l2 ←
        if 0 < bonus then
          BalanceLedger.credit l1 o.userId .bonus bonus (some orderId) "deposit bonus"
        else pure l1
      .ok (commit s orderId o
        { status := .approved, payoutAmount := none, voidAmount := none, voidReason := none }
        l2 act)
    | .game_load =>
      .ok (commit s orderId o
        { status := .approved, payoutAmount := none, voidAmount := none, voidReason := none }
        s.ledger act)
    | .withdrawal => do
      let b := s.ledger.accounts o.userId
      let rule := s.rules o.userId
      let res ← CashoutCalculator.compute b (s.basisOf o.userId)
        (some rule.maxCashoutMultiplier)
      let plan := CashoutCalculator.consumptionPlan b res.payout
      let l1 ← BalanceLedger.consume s.ledger o.userId plan (some orderId)
        "withdrawal approved"
      .ok (commit s orderId o
        { status := .approved, payoutAmount := some res.payout
          voidAmount := some res.void, voidReason := res.voidReason }
        l1 act)

/-- Modelled from the spec: the single authoritative approval entry point
`decide(order_id, action, actor_id, reason?)` (§4.5).  An unknown order is a
`NotFoundError`; an order already in a terminal state replays the previously
recorded result with no side effects (step 2); otherwise the actor is
permission-checked (step 3) and the decision is applied atomically (steps
4-7).  A terminal order without a recorded result can only have been made
terminal outside this entry point and is surfaced as an
`IllegalTransitionError`. -/
def decide (s : SvcState) (orderId : String) (action : DecisionAction)
    (actorId reason : String) : Except AppError (ApprovalResult × SvcState) :=
  match s.orders orderId with
  | none => .error .notFound
  | some o =>
    if o.status.isTerminal then
      match o.recordedResult with
      | some r => .ok (r, s)
      | none => .error .illegalTransition
    else if s.policy actorId o.amount then
      applyDecision s orderId o action actorId reason
    else .error .permissionDenied

/-- Call semantics of `decide` as seen by the caller: a failed call leaves
the service state unchanged. -/
def stateAfter (s : SvcState) (r : Except AppError (ApprovalResult × SvcState)) : SvcState :=
  match r with
  | .ok p => p.2
  | .error _ => s

end ApprovalService

/-- A fully-populated effective rule used in concrete evaluations. -/
def demoEffectiveRule : EffectiveRule :=
  { minDeposit := 10, maxDeposit := 5000, minWithdrawal := 20, maxWithdrawal := 2000
    depositBonusPct := 1/10, minCashoutMultiplier := 1, maxCashoutMultiplier := 2
    depositBlockBalance := 0 }

/-- A pending-review deposit order used in concrete evaluations. -/
def demoOrder : Order :=
  { orderId := "o1", userId := "u1", orderType := .deposit, amount := 100
    status := .pending_review, payoutAmount := none, voidAmount := none
    voidReason := none, recordedResult := none }

/-- A service state holding one pending order, an empty ledger and a policy
that authorizes every actor. -/
def demoSvcState : SvcState :=
  { orders := fun k => if k = "o1" then some demoOrder else none
    ledger := LedgerState.empty
    actions := []
    rules := fun _ => demoEffectiveRule
    basisOf := fun _ => 100
    policy := fun _ _ => true }

/-- The service state after rejecting the pending order of `demoSvcState`. -/
def demoSvcAfter : SvcState :=
  ApprovalService.stateAfter demoSvcState
    (ApprovalService.decide demoSvcState "o1" .reject "admin" "invalid proof")

/-- A ledger holding one account `A` with 50 cash and nothing else. -/
def demoLedger : LedgerState :=
  { accounts := fun k => if k = "A" then ⟨50, 0, 0⟩ else Balances.zero
    entries := [] }

/-- A fully-populated GLOBAL rule row (max_withdrawal 2000). -/
def demoGlobalRule : Rule :=
  { minDeposit := some 10, maxDeposit := some 5000, minWithdrawal := some 20
    maxWithdrawal := some 2000, depositBonusPct := some (1/10)
    minCashoutMultiplier := some 1, maxCashoutMultiplier := some 3
    depositBlockBalance := some 0 }

/-- A GAME rule row overriding only max_withdrawal (1000). -/
def demoGameRule : Rule := { Rule.empty with maxWithdrawal := some 1000 }

/-- A CLIENT rule row overriding only max_withdrawal (500). -/
def demoClientRule : Rule := { Rule.empty with maxWithdrawal := some 500 }

theorem foldl_add_init {α : Type} (f : α → ℚ) (l : List α) :
    ∀ a : ℚ, List.foldl (fun s x => s + f x) a l = a + List.foldl (fun s x => s + f x) 0 l := by
  induction l with
  | nil => intro a; simp
  | cons x xs ih =>
    intro a
    simp only [List.foldl_cons]
    rw [ih (a + f x), ih (0 + f x)]
    ring

/-- C9: `PortalRoute` renders its children for every visitor regardless of
authentication state: since `DEMO_MODE` is hard-coded `true`, the output does
not depend on `isPortalAuthenticated` or `loading` (two runs differing only
in those inputs render identically), and the redirect to `/client-login` is
unreachable for all inputs. -/
theorem portalRoute_demo_mode_ignores_auth :
    ∀ (auth loading auth2 loading2 : Bool),
      PortalRoute.render auth loading = PortalRoute.Render.children ∧
      PortalRoute.render auth loading = PortalRoute.render auth2 loading2 ∧
      ∀ target, PortalRoute.render auth loading ≠ PortalRoute.Render.redirect target := by
  have h : ∀ a l, PortalRoute.render a l = PortalRoute.Render.children := by decide
  intro auth loading auth2 loading2
  refine ⟨h auth loading, (h auth loading).trans (h auth2 loading2).symm, ?_⟩
  intro target hcontra
  rw [h auth loading] at hcontra
  exact PortalRoute.Render.noConfusion hcontra

/-- C10: in `PortalWithdrawals` each record contributes to at most one of the
two summary totals: `approved`/`confirmed` records feed the Completed total
(payout_amount falling back to amount), `rejected`/`cancelled` records feed
neither, and every other record feeds the Pending total with its amount —
the two contributing sets are disjoint. -/
theorem portalWithdrawals_totals_partition :
    ∀ (w : PortalWithdrawals.Withdrawal) (ws : List PortalWithdrawals.Withdrawal),
      (PortalWithdrawals.pendingFilter w && PortalWithdrawals.completedFilter w) = false ∧
      PortalWithdrawals.completedFilter w = (w.status == "approved" || w.status == "confirmed") ∧
      ((w.status == "rejected" || w.status == "cancelled") &&
        (PortalWithdrawals.pendingFilter w || PortalWithdrawals.completedFilter w)) = false ∧
      PortalWithdrawals.totalPending (w :: ws) =
        (if PortalWithdrawals.pendingFilter w then PortalWithdrawals.pendingContrib w else 0) +
          PortalWithdrawals.totalPending ws ∧
      PortalWithdrawals.totalCompleted (w :: ws) =
        (if PortalWithdrawals.completedFilter w then PortalWithdrawals.completedContrib w
          else 0) + PortalWithdrawals.totalCompleted ws := by
  intro w ws
  refine ⟨?_, ?_, ?_, ?_, ?_⟩
  · cases h1 : w.status == "approved" <;> cases h2 : w.status == "confirmed" <;>
      cases h3 : w.status == "rejected" <;> cases h4 : w.status == "cancelled" <;>
      simp [PortalWithdrawals.pendingFilter, PortalWithdrawals.completedFilter,
        List.contains, List.elem, h1, h2, h3, h4]
  · cases h1 : w.status == "approved" <;> cases h2 : w.status == "confirmed" <;>
      simp [PortalWithdrawals.completedFilter, List.contains, List.elem, h1, h2]
  · cases h3 : w.status == "rejected" with
    | true =>
      have e := eq_of_beq h3
      simp [PortalWithdrawals.pendingFilter, PortalWithdrawals.completedFilter,
        List.contains, List.elem, e]
    | false =>
      cases h4 : w.status == "cancelled" with
      | true =>
        have e := eq_of_beq h4
        simp [PortalWithdrawals.pendingFilter, PortalWithdrawals.completedFilter,
          List.contains, List.elem, e]
      | false => simp [h3, h4]
  · simp only [PortalWithdrawals.totalPending, List.filter_cons]
    cases hp : PortalWithdrawals.pendingFilter w
    · simp
    · simp only [if_true]
      rw [List.foldl_cons, foldl_add_init]
      ring
  · simp only [PortalWithdrawals.totalCompleted, List.filter_cons]
    cases hp : PortalWithdrawals.completedFilter w
    · simp
    · simp only [if_true]
      rw [List.foldl_cons, foldl_add_init]
      ring

/-- C6 (counterexample evidence): the wallet-load approve/reject handlers of
`AdminWalletLoads.js` do not submit through the centralized approval-service
route; they post to the separate legacy review path `/api/v1/wallet/review`,
which the repository documents record as removed. -/
theorem adminWalletLoads_separate_review_path :
    (AdminWalletLoads.handleApprove "REQ-1").1 = "/api/v1/wallet/review" ∧
    (AdminWalletLoads.handleApprove "REQ-1").1 ≠ approvalServiceActionPath "REQ-1" ∧
    (AdminWalletLoads.handleReject "invalid proof" "REQ-1").map Prod.fst =
      some "/api/v1/wallet/review" := by
  refine ⟨rfl, by decide, by decide⟩

/-- C8 (counterexample evidence): the payload sent by `AdminWalletLoads.js`
identifies the request by `request_id` and the actor by `admin_id`, with
uppercase action values `APPROVE`/`REJECT` — not the specified
`{order_id, action: approve|reject, actor_id}` shape. -/
theorem adminWalletLoads_payload_shape_mismatch :
    AdminWalletLoads.handleApprove "REQ-1" =
      ("/api/v1/wallet/review",
        { request_id := "REQ-1", action := "APPROVE", admin_id := "admin-web",
          reason := none }) ∧
    AdminWalletLoads.handleReject "invalid proof" "REQ-1" =
      some ("/api/v1/wallet/review",
        { request_id := "REQ-1", action := "REJECT", admin_id := "admin-web",
          reason := some "invalid proof" }) ∧
    specActionValues.contains "APPROVE" = false ∧
    specActionValues.contains "REJECT" = false := by
  refine ⟨rfl, by decide, by decide, by decide⟩

/-- C7: a reject decision requires a non-empty reason.  If the reason is
empty or whitespace-only, the admin wallet-loads page sends no request at
all, and the approval entry point performs no mutation — for a non-terminal
order the call surfaces the structured error and leaves the order available
for a fresh decision attempt. -/
theorem reject_requires_nonempty_reason :
    ∀ (reason : String), jsTrim reason = "" →
      (∀ rid, AdminWalletLoads.handleReject reason rid = none) ∧
      (∀ (s : SvcState) (oid actorId : String),
        ApprovalService.stateAfter s
          (ApprovalService.decide s oid .reject actorId reason) = s ∧
        (∀ o, s.orders oid = some o → o.status.isTerminal = false →
          s.policy actorId o.amount = true →
          ApprovalService.decide s oid .reject actorId reason =
            .error .reasonRequired)) := by
  intro reason h
  constructor
  · intro rid
    simp [AdminWalletLoads.handleReject, h]
  · intro s oid actorId
    constructor
    · cases ho : s.orders oid with
      | none => simp [ApprovalService.decide, ho, ApprovalService.stateAfter]
      | some o =>
        cases ht : o.status.isTerminal with
        | true =>
          cases hr : o.recordedResult with
          | none =>
            simp [ApprovalService.decide, ho, ht, hr, ApprovalService.stateAfter]
          | some r =>
            simp [ApprovalService.decide, ho, ht, hr, ApprovalService.stateAfter]
        | false =>
          cases hp : s.policy actorId o.amount with
          | true =>
            simp [ApprovalService.decide, ho, ht, hp,
              ApprovalService.applyDecision, h, ApprovalService.stateAfter]
          | false =>
            simp [ApprovalService.decide, ho, ht, hp, ApprovalService.stateAfter]
    · intro o ho hterm hpol
      simp [ApprovalService.decide, ho, hterm, hpol, ApprovalService.applyDecision, h]

theorem reject_requires_nonempty_reason_witness :
    jsTrim "  " = "" ∧
    AdminWalletLoads.handleReject "  " "REQ-1" = none ∧
    ApprovalService.stateAfter demoSvcState
      (ApprovalService.decide demoSvcState "o1" .reject "admin" "  ") = demoSvcState := by
  have h : jsTrim "  " = "" := by decide
  exact ⟨h, (reject_requires_nonempty_reason "  " h).1 "REQ-1",
    ((reject_requires_nonempty_reason "  " h).2 demoSvcState "o1" "admin").1⟩

/-- C2: for every balance state and every present non-zero multiplier, the
cashout computation returns `payout = min(cash + bonus + credits,
max_cashout)` and `void = total_balance - payout`, with void reason
`EXCEEDS_MAX_CASHOUT` exactly when `void > 0`; in particular with
cash=100, bonus=20, credits=10 and max_cashout=110 it returns payout=110,
void=20 with the reason, and with max_cashout=200 it returns payout=130,
void=0 with no reason. -/
theorem cashoutCalculator_compute_law :
    (∀ (b : Balances) (basis m : ℚ), m ≠ 0 →
      CashoutCalculator.compute b basis (some m) =
        .ok { payout := min (b.cash + b.bonus + b.credits) (basis * m),
              void := (b.cash + b.bonus + b.credits) -
                min (b.cash + b.bonus + b.credits) (basis * m),
              voidReason :=
                if 0 < (b.cash + b.bonus + b.credits) -
                    min (b.cash + b.bonus + b.credits) (basis * m)
                then some .EXCEEDS_MAX_CASHOUT else none }) ∧
    CashoutCalculator.compute ⟨100, 20, 10⟩ 110 (some 1) =
      .ok ⟨110, 20, some .EXCEEDS_MAX_CASHOUT⟩ ∧
    CashoutCalculator.compute ⟨100, 20, 10⟩ 200 (some 1) = .ok ⟨130, 0, none⟩ := by
  refine ⟨?_, by norm_num [CashoutCalculator.compute, min_def],
    by norm_num [CashoutCalculator.compute, min_def]⟩
  intro b basis m hm
  simp [CashoutCalculator.compute, hm]

theorem cashoutCalculator_compute_law_witness :
    (2 : ℚ) ≠ 0 ∧
    CashoutCalculator.compute ⟨1, 2, 3⟩ 4 (some 2) = .ok ⟨6, 0, none⟩ := by
  have hm : (2 : ℚ) ≠ 0 := by norm_num
  have h := cashoutCalculator_compute_law.1 ⟨1, 2, 3⟩ 4 2 hm
  exact ⟨hm, h.trans (by norm_num [min_def])⟩

/-- C5: rule resolution applies the precedence CLIENT > GAME > GLOBAL
independently per field, each absent value falling through to the next
level; in particular a CLIENT max_withdrawal=500 over GAME 1000 over GLOBAL
2000 resolves to 500, and with the CLIENT override removed it resolves
to 1000 (all other fields falling through to GLOBAL). -/
theorem ruleResolver_field_precedence :
    (∀ (c g : Option ℚ) (v : ℚ),
      RuleResolver.resolveField c g (some v) = .ok (c.getD (g.getD v))) ∧
    RuleResolver.resolve (some demoClientRule) (some demoGameRule) demoGlobalRule =
      .ok { minDeposit := 10, maxDeposit := 5000, minWithdrawal := 20,
            maxWithdrawal := 500, depositBonusPct := 1/10,
            minCashoutMultiplier := 1, maxCashoutMultiplier := 3,
            depositBlockBalance := 0 } ∧
    RuleResolver.resolve (some Rule.empty) (some demoGameRule) demoGlobalRule =
      .ok { minDeposit := 10, maxDeposit := 5000, minWithdrawal := 20,
            maxWithdrawal := 1000, depositBonusPct := 1/10,
            minCashoutMultiplier := 1, maxCashoutMultiplier := 3,
            depositBlockBalance := 0 } := by
  exact ⟨fun c g v => rfl, rfl, rfl⟩

theorem applyPlanChecked_none_iff (plan : List (Bucket × ℚ)) :
    ∀ b : Balances,
      BalanceLedger.applyPlanChecked b plan = none ↔
        ∃ k, k < plan.length ∧
          (BalanceLedger.applyPlanUnchecked b (plan.take (k + 1))).get
            (plan.getD k (Bucket.cash, 0)).1 < 0 := by
  induction plan with
  | nil => intro b; simp [BalanceLedger.applyPlanChecked]
  | cons hd rest ih =>
    intro b
    obtain ⟨bk, amt⟩ := hd
    simp only [BalanceLedger.applyPlanChecked]
    by_cases hneg : ((b.debit bk amt).get bk) < 0
    · simp only [if_pos hneg]
      constructor
      · intro _
        refine ⟨0, by simp, ?_⟩
        simpa [BalanceLedger.applyPlanUnchecked] using hneg
      · intro _
        trivial
    · simp only [if_neg hneg]
      rw [ih (b.debit bk amt)]
      constructor
      · rintro ⟨k, hk, hlt⟩
        refine ⟨k + 1, by simp; omega, ?_⟩
        simpa [BalanceLedger.applyPlanUnchecked, List.take_succ_cons,
          List.getD_cons_succ] using hlt
      · rintro ⟨k, hk, hlt⟩
        cases k with
        | zero =>
          exfalso
          apply hneg
          simpa [BalanceLedger.applyPlanUnchecked, List.take_succ_cons,
            List.getD_cons_zero] using hlt
        | succ j =>
          refine ⟨j, by simp at hk; omega, ?_⟩
          simpa [BalanceLedger.applyPlanUnchecked, List.take_succ_cons,
            List.getD_cons_succ] using hlt

/-- C3: if sequentially debiting the buckets of a consumption plan would
drive any bucket negative at some step, `consume` fails with
`InsufficientBalanceError` and the ledger state seen by the caller —
balances included — is exactly the state before the call: no partial debit
is applied. -/
theorem balanceLedger_consume_atomic :
    ∀ (s : LedgerState) (aid : String) (plan : List (Bucket × ℚ))
      (oid : Option String) (reason : String),
      (∃ k, k < plan.length ∧
        (BalanceLedger.applyPlanUnchecked (s.accounts aid) (plan.take (k + 1))).get
          (plan.getD k (Bucket.cash, 0)).1 < 0) →
      BalanceLedger.consumeRun s aid plan oid reason =
        (s, some .insufficientBalance) := by
  intro s aid plan oid reason h
  have hnone := (applyPlanChecked_none_iff plan (s.accounts aid)).mpr h
  simp [BalanceLedger.consumeRun, BalanceLedger.consume, hnone]

theorem balanceLedger_consume_atomic_witness :
    BalanceLedger.consumeRun demoLedger "A" [(Bucket.cash, 60)] none "withdrawal" =
      (demoLedger, some .insufficientBalance) := by
  apply balanceLedger_consume_atomic
  refine ⟨0, by simp, ?_⟩
  norm_num [BalanceLedger.applyPlanUnchecked, demoLedger, Balances.debit,
    Balances.addBucket, Balances.get]

theorem add_delta_cancel (b b2 : Balances) :
    b + Balances.mk (b2.cash - b.cash) (b2.bonus - b.bonus) (b2.credits - b.credits) = b2 := by
  cases b with
  | mk bc bb br =>
    cases b2 with
    | mk c bo cr =>
      show Balances.mk (bc + (c - bc)) (bb + (bo - bb)) (br + (cr - br)) = Balances.mk c bo cr
      simp only [Balances.mk.injEq]
      refine ⟨by ring, by ring, by ring⟩

theorem reconciled_creditRun (s : LedgerState) (a : String) (bk : Bucket) (amt : ℚ)
    (oid : Option String) (re : String) (h : reconciled s) :
    reconciled (BalanceLedger.creditRun s a bk amt oid re).1 := by
  by_cases hle : amt ≤ 0
  · have heq : BalanceLedger.creditRun s a bk amt oid re = (s, some .invalidAmount) := by
      simp [BalanceLedger.creditRun, BalanceLedger.credit, hle]
    rw [heq]
    exact h
  · have heq : BalanceLedger.creditRun s a bk amt oid re =
      ({ accounts := fun k =>
           if k = a then (s.accounts a).addBucket bk amt else s.accounts k
         entries :=
           { accountId := a
             deltaCash := ((s.accounts a).addBucket bk amt).cash - (s.accounts a).cash
             deltaBonus := ((s.accounts a).addBucket bk amt).bonus - (s.accounts a).bonus
             deltaCredits := ((s.accounts a).addBucket bk amt).credits - (s.accounts a).credits
             orderId := oid, reason := re } :: s.entries }, none) := by
      simp [BalanceLedger.creditRun, BalanceLedger.credit, hle]
    rw [heq]
    intro a2
    by_cases ha : a = a2
    · subst ha
      show sumDeltas (_ :: s.entries) a = _
      simp only [sumDeltas, if_pos rfl, h a, LedgerEntry.delta]
      simpa using add_delta_cancel (s.accounts a) ((s.accounts a).addBucket bk amt)
    · have ha2 : ¬(a2 = a) := fun hc => ha hc.symm
      show sumDeltas (_ :: s.entries) a2 = _
      simp [sumDeltas, ha, ha2, h a2]

theorem reconciled_consumeRun (s : LedgerState) (a : String) (plan : List (Bucket × ℚ))
    (oid : Option String) (re : String) (h : reconciled s) :
    reconciled (BalanceLedger.consumeRun s a plan oid re).1 := by
  cases hplan : BalanceLedger.applyPlanChecked (s.accounts a) plan with
  | none =>
    have heq : BalanceLedger.consumeRun s a plan oid re =
        (s, some .insufficientBalance) := by
      simp [BalanceLedger.consumeRun, BalanceLedger.consume, hplan]
    rw [heq]
    exact h
  | some b2 =>
    have heq : BalanceLedger.consumeRun s a plan oid re =
      ({ accounts := fun k => if k = a then b2 else s.accounts k
         entries :=
           { accountId := a
             deltaCash := b2.cash - (s.accounts a).cash
             deltaBonus := b2.bonus - (s.accounts a).bonus
             deltaCredits := b2.credits - (s.accounts a).credits
             orderId := oid, reason := re } :: s.entries }, none) := by
      simp [BalanceLedger.consumeRun, BalanceLedger.consume, hplan]
    rw [heq]
    intro a2
    by_cases ha : a = a2
    · subst ha
      show sumDeltas (_ :: s.entries) a = _
      simp only [sumDeltas, if_pos rfl, h a, LedgerEntry.delta]
      simpa using add_delta_cancel (s.accounts a) b2
    · have ha2 : ¬(a2 = a) := fun hc => ha hc.symm
      show sumDeltas (_ :: s.entries) a2 = _
      simp [sumDeltas, ha, ha2, h a2]

/-- C4: after any sequence of ledger operations starting from the empty
ledger, the sum of the signed deltas across all LedgerEntries recorded for
an account equals the account's current stored balance in every bucket. -/
theorem ledger_reconciliation :
    ∀ (ops : List LedgerOp) (a : String),
      sumDeltas (runOps LedgerState.empty ops).entries a =
        (runOps LedgerState.empty ops).accounts a := by
  have key : ∀ (ops : List LedgerOp) (s : LedgerState),
      reconciled s → reconciled (runOps s ops) := by
    intro ops
    induction ops with
    | nil => intro s h; exact h
    | cons op rest ih =>
      intro s h
      apply ih
      cases op with
      | credit a bk amt oid re => exact reconciled_creditRun s a bk amt oid re h
      | consume a plan oid re => exact reconciled_consumeRun s a plan oid re h
  intro ops a
  exact key ops LedgerState.empty (fun _ => rfl) a

theorem except_bind_ok {ε α β : Type} (a : α) (f : α → Except ε β) :
    (Except.ok a : Except ε α) >>= f = f a := rfl

theorem except_bind_error {ε α β : Type} (e : ε) (f : α → Except ε β) :
    (Except.error e : Except ε α) >>= f = .error e := rfl

theorem commit_orders_self (s : SvcState) (oid : String) (o : Order)
    (R : ApprovalResult) (L : LedgerState) (act : ApprovalAction) :
    (ApprovalService.commit s oid o R L act).2.orders oid =
      some { o with
             status := R.status
             payoutAmount := R.payoutAmount
             voidAmount := R.voidAmount
             voidReason := R.voidReason
             recordedResult := some R } := by
  simp [ApprovalService.commit]

theorem ok_commit_inv (s : SvcState) (oid : String) (o : Order) (R : ApprovalResult)
    (L : LedgerState) (act : ApprovalAction) (r : ApprovalResult) (s₁ : SvcState)
    (h : (Except.ok (ApprovalService.commit s oid o R L act) :
          Except AppError (ApprovalResult × SvcState)) = .ok (r, s₁)) :
    r = R ∧ s₁ = (ApprovalService.commit s oid o R L act).2 := by
  injection h with h2
  exact ⟨(congrArg Prod.fst h2).symm, (congrArg Prod.snd h2).symm⟩

theorem applyDecision_ok_shape (s : SvcState) (oid : String) (o : Order)
    (action : DecisionAction) (actorId reason : String) (r : ApprovalResult)
    (s₁ : SvcState)
    (h : ApprovalService.applyDecision s oid o action actorId reason = .ok (r, s₁)) :
    s₁.orders oid =
      some { o with
             status := r.status
             payoutAmount := r.payoutAmount
             voidAmount := r.voidAmount
             voidReason := r.voidReason
             recordedResult := some r } ∧
    r.status.isTerminal = true := by
  cases action with
  | reject =>
    by_cases hre : jsTrim reason = ""
    · simp [ApprovalService.applyDecision, hre] at h
    · simp only [ApprovalService.applyDecision, if_neg hre] at h
      obtain ⟨h1, h2⟩ := ok_commit_inv _ _ _ _ _ _ _ _ h
      subst h1
      subst h2
      exact ⟨commit_orders_self _ _ _ _ _ _, rfl⟩
  | approve =>
    cases hot : o.orderType with
    | deposit =>
      simp only [ApprovalService.applyDecision, hot] at h
      cases h1 : BalanceLedger.credit s.ledger o.userId .cash o.amount (some oid)
          "deposit approved" with
      | error e =>
        rw [h1, except_bind_error] at h
        exact absurd h (by simp)
      | ok l1 =>
        rw [h1, except_bind_ok] at h
        by_cases hb : 0 < o.amount * (s.rules o.userId).depositBonusPct
        · rw [if_pos hb] at h
          cases h2 : BalanceLedger.credit l1 o.userId .bonus
              (o.amount * (s.rules o.userId).depositBonusPct) (some oid)
              "deposit bonus" with
          | error e =>
            rw [h2, except_bind_error] at h
            exact absurd h (by simp)
          | ok l2 =>
            rw [h2, except_bind_ok] at h
            obtain ⟨ha, hb2⟩ := ok_commit_inv _ _ _ _ _ _ _ _ h
            subst ha
            subst hb2
            refine ⟨?_, rfl⟩
            rw [← hot]
            exact commit_orders_self _ _ _ _ _ _
        · rw [if_neg hb] at h
          rw [show (pure l1 : Except AppError LedgerState) = .ok l1 from rfl,
            except_bind_ok] at h
          obtain ⟨ha, hb2⟩ := ok_commit_inv _ _ _ _ _ _ _ _ h
          subst ha
          subst hb2
          refine ⟨?_, rfl⟩
          rw [← hot]
          exact commit_orders_self _ _ _ _ _ _
    | game_load =>
      simp only [ApprovalService.applyDecision, hot] at h
      obtain ⟨ha, hb2⟩ := ok_commit_inv _ _ _ _ _ _ _ _ h
      subst ha
      subst hb2
      refine ⟨?_, rfl⟩
      rw [← hot]
      exact commit_orders_self _ _ _ _ _ _
    | withdrawal =>
      simp only [ApprovalService.applyDecision, hot] at h
      cases h1 : CashoutCalculator.compute (s.ledger.accounts o.userId)
          (s.basisOf o.userId) (some (s.rules o.userId).maxCashoutMultiplier) with
      | error e =>
        rw [h1, except_bind_error] at h
        exact absurd h (by simp)
      | ok res =>
        rw [h1, except_bind_ok] at h
        cases h2 : BalanceLedger.consume s.ledger o.userId
            (CashoutCalculator.consumptionPlan (s.ledger.accounts o.userId) res.payout)
            (some oid) "withdrawal approved" with
        | error e =>
          rw [h2, except_bind_error] at h
          exact absurd h (by simp)
        | ok l1 =>
          rw [h2, except_bind_ok] at h
          obtain ⟨ha, hb2⟩ := ok_commit_inv _ _ _ _ _ _ _ _ h
          subst ha
          subst hb2
          refine ⟨?_, rfl⟩
          rw [← hot]
          exact commit_orders_self _ _ _ _ _ _

/-- C1: idempotent replay — once a call to the approval entry point has
committed a decision for an order (which leaves the order terminal), any
second call for that order, with the same or a different action, actor or
reason, returns the identical previously recorded ApprovalResult with the
state unchanged: no side effect is re-applied and no additional LedgerEntry
is written. -/
theorem approvalService_idempotent_replay :
    ∀ (s : SvcState) (oid : String) (a : DecisionAction) (actorId reason : String)
      (r : ApprovalResult) (s₁ : SvcState),
      ApprovalService.decide s oid a actorId reason = .ok (r, s₁) →
      ∀ (a2 : DecisionAction) (actor2 reason2 : String),
        ApprovalService.decide s₁ oid a2 actor2 reason2 = .ok (r, s₁) ∧
        (ApprovalService.stateAfter s₁
            (ApprovalService.decide s₁ oid a2 actor2 reason2)).ledger.entries =
          s₁.ledger.entries := by
  intro s oid a actorId reason r s₁ h a2 actor2 reason2
  cases horders : s.orders oid with
  | none => simp [ApprovalService.decide, horders] at h
  | some o =>
    cases hterm : o.status.isTerminal with
    | true =>
      cases hrec : o.recordedResult with
      | none => simp [ApprovalService.decide, horders, hterm, hrec] at h
      | some r0 =>
        simp only [ApprovalService.decide, horders, hterm, if_true] at h
        rw [hrec] at h
        injection h with h2
        have h3 : r0 = r := congrArg Prod.fst h2
        have h4 : s = s₁ := congrArg Prod.snd h2
        subst h3
        subst h4
        simp [ApprovalService.decide, horders, hterm, hrec, ApprovalService.stateAfter]
    | false =>
      cases hpol : s.policy actorId o.amount with
      | false => simp [ApprovalService.decide, horders, hterm, hpol] at h
      | true =>
        have happ : ApprovalService.applyDecision s oid o a actorId reason = .ok (r, s₁) := by
          simpa [ApprovalService.decide, horders, hterm, hpol] using h
        obtain ⟨ho₁, hterm₁⟩ := applyDecision_ok_shape s oid o a actorId reason r s₁ happ
        have hfirst : ApprovalService.decide s₁ oid a2 actor2 reason2 = .ok (r, s₁) := by
          simp [ApprovalService.decide, ho₁, hterm₁]
        refine ⟨hfirst, ?_⟩
        rw [hfirst]
        rfl

theorem approvalService_idempotent_replay_witness :
    ApprovalService.decide demoSvcState "o1" .reject "admin" "invalid proof" =
      .ok (⟨.rejected, none, none, none⟩, demoSvcAfter) ∧
    ApprovalService.decide demoSvcAfter "o1" .approve "other-admin" "" =
      .ok (⟨.rejected, none, none, none⟩, demoSvcAfter) := by
  have hfirst : ApprovalService.decide demoSvcState "o1" .reject "admin" "invalid proof" =
      .ok (⟨.rejected, none, none, none⟩, demoSvcAfter) := by rfl
  exact ⟨hfirst,
    (approvalService_idempotent_replay demoSvcState "o1" .reject "admin" "invalid proof"
      ⟨.rejected, none, none, none⟩ demoSvcAfter hfirst .approve "other-admin" "").1⟩
